import Mathlib

/-!
Shallow embedding of `fileserver/routes.py` from session-foundation/session-file-server,
together with proofs checking the natural-language specification against it.

Conventions:
* Python `bytes` values are embedded as `List Nat` (each entry one byte value).
* Python `str` values are embedded as Lean `String`; `str.encode()` becomes
  `strBytes` (code points, which agrees with UTF-8 on the ASCII data involved).
* The cryptographic primitives (blake2b, Ed25519 point validation and signature
  verification) are parameters of the embedding, collected in a `Crypto` bundle:
  all the control flow of the source is embedded, with the primitives opaque
  function arguments.
* Database statements are embedded as explicit state transitions over an
  association-list table, with per-statement fault injection standing in for
  the database errors (`psycopg.errors.*`) that the source catches or not.
* Functions from this repository that are referenced by `routes.py` but whose
  files are not among the provided sources (`fileserver/utils.py`,
  `fileserver/http.py`) are modelled from the spec; each carries a doc comment
  saying so.
-/

/-- A Python `bytes` value: one `Nat` per byte. -/
abbrev Bytes := List Nat

/-- `str.encode()` for the ASCII strings this embedding needs: the sequence of
code points of the string. -/
def strBytes (s : String) : Bytes := s.data.map Char.toNat

namespace http

/-- Modelled from the spec: status codes used by the server (`fileserver/http.py`
is not among the provided sources); these are the standard HTTP codes the spec
lists in section 6. -/
def BAD_REQUEST : Nat := 400

def UNAUTHORIZED : Nat := 401

def NOT_FOUND : Nat := 404

def PAYLOAD_TOO_LARGE : Nat := 413

def TOO_EARLY : Nat := 425

def INTERNAL_SERVER_ERROR : Nat := 500

def BAD_GATEWAY : Nat := 502

def INSUFFICIENT_STORAGE : Nat := 507

end http

/-! ### Hex / base64 codec

`utils.decode_hex_or_b64` and `base64.urlsafe_b64encode` as used by the source.
-/

/-- Value of one hex digit character (by code point), `none` if not a hex digit. -/
def hexVal (c : Nat) : Option Nat :=
  if 48 ≤ c ∧ c ≤ 57 then some (c - 48)
  else if 97 ≤ c ∧ c ≤ 102 then some (c - 87)
  else if 65 ≤ c ∧ c ≤ 70 then some (c - 55)
  else none

/-- Decode an even-length run of hex digits into bytes; `none` on a non-hex
character or odd length. -/
def hexPairs : Bytes → Option Bytes
  | [] => some []
  | a :: b :: rest => do
    let hi ← hexVal a
    let lo ← hexVal b
    let tail ← hexPairs rest
    pure ((16 * hi + lo) :: tail)
  | [_] => none

/-- Value of one standard-alphabet base64 character (by code point). -/
def b64Val (c : Nat) : Option Nat :=
  if 65 ≤ c ∧ c ≤ 90 then some (c - 65)
  else if 97 ≤ c ∧ c ≤ 122 then some (c - 71)
  else if 48 ≤ c ∧ c ≤ 57 then some (c + 4)
  else if c = 43 then some 62
  else if c = 47 then some 63
  else none

/-- Decode unpadded base64: full 4-character groups give 3 bytes, a trailing
group of 2 or 3 characters gives 1 or 2 bytes, a trailing single character or
an invalid character fails. -/
def b64Groups : Bytes → Option Bytes
  | [] => some []
  | [a, b] => do
    let va ← b64Val a
    let vb ← b64Val b
    pure [4 * va + vb / 16]
  | [a, b, c] => do
    let va ← b64Val a
    let vb ← b64Val b
    let vc ← b64Val c
    pure [4 * va + vb / 16, vb % 16 * 16 + vc / 4]
  | a :: b :: c :: d :: rest => do
    let va ← b64Val a
    let vb ← b64Val b
    let vc ← b64Val c
    let vd ← b64Val d
    let tail ← b64Groups rest
    pure ((4 * va + vb / 16) :: (vb % 16 * 16 + vc / 4) :: (vc % 4 * 64 + vd) :: tail)
  | [_] => none

/-- Remove trailing base64 padding characters so padded and unpadded input are
both accepted. -/
def stripPadding (s : Bytes) : Bytes :=
  (s.reverse.dropWhile (fun c => c == 61)).reverse

/-- Modelled from the spec: `utils.decode_hex_or_b64` (`fileserver/utils.py` is
not among the provided sources). Section 4.1: accepts hexadecimal or
unpadded/standard base64, disambiguated by length/alphabet, and fails unless
the decoded length is exactly `expectedLen`. -/
def decode_hex_or_b64 (s : String) (expectedLen : Nat) : Option Bytes :=
  let cs := strBytes s
  let decoded :=
    if cs.length = 2 * expectedLen then hexPairs cs
    else b64Groups (stripPadding cs)
  match decoded with
  | some bs => if bs.length = expectedLen then some bs else none
  | none => none

/-- Character (by code point) of one 6-bit group in the URL-safe base64
alphabet used by Python `base64.urlsafe_b64encode`. -/
def b64Char (i : Nat) : Nat :=
  if i < 26 then 65 + i
  else if i < 52 then 71 + i
  else if i < 62 then i - 4
  else if i = 62 then 45
  else 95

/-- Python `base64.urlsafe_b64encode`: bytes of the base64 text, padded with
`=` (byte 61) when the input length is not a multiple of 3. -/
def urlsafe_b64encode : Bytes → Bytes
  | [] => []
  | [a] => [b64Char (a / 4), b64Char (a % 4 * 16), 61, 61]
  | [a, b] => [b64Char (a / 4), b64Char (a % 4 * 16 + b / 16), b64Char (b % 16 * 4), 61]
  | a :: b :: c :: rest =>
    b64Char (a / 4) :: b64Char (a % 4 * 16 + b / 16)
      :: b64Char (b % 16 * 4 + c / 64) :: b64Char (c % 64)
      :: urlsafe_b64encode rest

/-! ### Content hasher (`generate_file_id`, lines 49-57) -/

/-- The salt `b"SessionFileSvr\0\0"` from line 56. -/
def fileSvrSalt : Bytes := strBytes "SessionFileSvr" ++ [0, 0]

/-- Lines 49-57: blake2b hash of the body with a 33-byte digest and the fixed
salt, URL-safe base64 encoded, decoded to `str`.  `blake2b data digestSize salt`
is the abstract hash primitive. -/
def generate_file_id (blake2b : Bytes → Nat → Bytes → Bytes) (data : Bytes) : String :=
  String.mk ((urlsafe_b64encode (blake2b data 33 fileSvrSalt)).map Char.ofNat)

example : decode_hex_or_b64 "0700" 2 = some [7, 0] := by decide
example : decode_hex_or_b64 "zz" 33 = none := by decide
example : urlsafe_b64encode [0, 0, 0] = [65, 65, 65, 65] := by decide

/-! ### Request authenticator (`valid_blinded_version_id_for_auth`, lines 66-156) -/

/-- The cryptographic primitives of the source, as opaque function parameters:
`blake2b data digestSize salt` (hashlib.blake2b digest),
`is_valid_point pk` (sodium.crypto_core_ed25519_is_valid_point),
`ed25519_verify pk msg sig` (nacl VerifyKey(pk).verify(msg, sig) succeeding). -/
structure Crypto where
  blake2b : Bytes → Nat → Bytes → Bytes
  is_valid_point : Bytes → Bool
  ed25519_verify : Bytes → Bytes → Bytes → Bool

/-- The parts of a flask request that the embedded handlers read. -/
structure Request where
  pubkeyHeader : Option String
  timestampHeader : Option String
  signatureHeader : Option String
  method : String
  path : String
  query_string : Bytes
  data : Bytes
  args_platform : Option String

/-- Outcome of `valid_blinded_version_id_for_auth`. -/
inductive AuthResult where
  | noIdentity : AuthResult
  | ok : String → AuthResult
  | reject : Nat → AuthResult
  | typeError : AuthResult
deriving DecidableEq

/-- Line 74: a header counts as missing when absent or an empty string
(`x is None or x == ''`). -/
def headerMissing : Option String → Bool
  | none => true
  | some s => s == ""

/-- Line 74: `missing = sum(...)` over the three auth headers. -/
def missingCount (pk ts sig : Option String) : Nat :=
  (if headerMissing pk then 1 else 0) + (if headerMissing ts then 1 else 0)
    + (if headerMissing sig then 1 else 0)

/-- A Python value that is either `bytes` or a `blake2b` hash object (whose
digest was not taken). -/
inductive PyBytesLike where
  | bytes : Bytes → PyBytesLike
  | hashObject : Bytes → PyBytesLike

/-- Python `bytes.__add__`: concatenation when the right operand is `bytes`,
`TypeError` (here `none`) otherwise. -/
def pyBytesAdd (a : Bytes) : PyBytesLike → Option Bytes
  | .bytes b => some (a ++ b)
  | .hashObject _ => none

/-- Value of one decimal digit character. -/
def digitVal (c : Char) : Option Nat :=
  if 48 ≤ c.toNat ∧ c.toNat ≤ 57 then some (c.toNat - 48) else none

/-- Accumulate decimal digits; fails on a non-digit. -/
def digitsToNat : List Char → Nat → Option Nat
  | [], acc => some acc
  | c :: rest, acc =>
    match digitVal c with
    | some d => digitsToNat rest (10 * acc + d)
    | none => none

/-- Line 114: `int(ts_str)` for a canonical decimal string: an optional minus
sign followed by at least one digit. -/
def int_of_string (s : String) : Option Int :=
  match s.data with
  | [] => none
  | ['-'] => none
  | '-' :: c :: rest => (digitsToNat (c :: rest) 0).map (fun n => -(n : Int))
  | l => (digitsToNat l 0).map (fun n => (n : Int))

/-- Lines 66-156, `valid_blinded_version_id_for_auth(request, required)`.
`now` is `time.time()`.  Note that line 146 of the source adds the blake2b
hash *object* (not its digest) to the `bytes` being built, which in Python
raises `TypeError`; this is embedded through `pyBytesAdd`, and the uncaught
exception becomes `AuthResult.typeError`. -/
def valid_blinded_version_id_for_auth (c : Crypto) (now : Int) (req : Request)
    (required : Bool) : AuthResult :=
  let missing := missingCount req.pubkeyHeader req.timestampHeader req.signatureHeader
  if missing ≠ 0 then
    if required ∨ missing < 3 then .reject http.BAD_REQUEST else .noIdentity
  else
    let blinded_version_id := req.pubkeyHeader.getD ""
    let ts_str := req.timestampHeader.getD ""
    let sig_str := req.signatureHeader.getD ""
    match decode_hex_or_b64 blinded_version_id 33 with
    | none => .reject http.BAD_REQUEST
    | some pkBytes =>
      if pkBytes.headD 0 ≠ 7 then .reject http.BAD_REQUEST
      else if ¬ c.is_valid_point pkBytes.tail then .reject http.BAD_REQUEST
      else
        match decode_hex_or_b64 sig_str 64 with
        | none => .reject http.BAD_REQUEST
        | some sig_in =>
          match int_of_string ts_str with
          | none => .reject http.BAD_REQUEST
          | some ts =>
            if ¬ (now - 24 * 60 * 60 ≤ ts ∧ ts ≤ now + 24 * 60 * 60) then
              .reject http.TOO_EARLY
            else
              let to_verify := strBytes ts_str ++ strBytes req.method ++ strBytes req.path
              let to_verify :=
                if req.query_string.length ≠ 0 then to_verify ++ (63 :: req.query_string)
                else to_verify
              let withBody :=
                if req.data.length ≠ 0 then
                  pyBytesAdd to_verify (.hashObject (c.blake2b req.data 64 []))
                else some to_verify
              match withBody with
              | none => .typeError
              | some msg =>
                if c.ed25519_verify pkBytes.tail msg sig_in then .ok blinded_version_id
                else .reject http.UNAUTHORIZED

/-- Modelled from the spec, section 6: the canonical message
`timestamp_as_ascii + HTTP_method + request_path` followed by `?` and the raw
query string iff the query string is non-empty, followed by the 64-byte keyed
hash of the body iff the body is non-empty.  Written from the spec wording so
it can be compared with what the source actually verifies. -/
def canonical_message (c : Crypto) (ts_str : String) (req : Request) : Bytes :=
  strBytes ts_str ++ strBytes req.method ++ strBytes req.path
    ++ (if req.query_string.length ≠ 0 then 63 :: req.query_string else [])
    ++ (if req.data.length ≠ 0 then c.blake2b req.data 64 [] else [])

/-! ### Blob store write path (`submit_file`, lines 159-238) -/

/-- One row of the `files` table: `data`, `uploaded` (server-assigned,
`DEFAULT now()`), `expiry`. -/
structure FileRow where
  data : Bytes
  uploaded : Int
  expiry : Int
deriving DecidableEq

/-- The `files` table of one database target, keyed by id. -/
abbrev Files := List (String × FileRow)

/-- `SELECT ... FROM files WHERE id = %s` returning the first matching row. -/
def lookupFile (tbl : Files) (id : String) : Option FileRow :=
  (tbl.find? (fun r => r.1 == id)).map Prod.snd

/-- Line 221: `INSERT INTO files (id, data, expiry) VALUES (%s, %s, NOW() + %s)`;
`uploaded` takes its `DEFAULT now()` value. -/
def sqlInsert (tbl : Files) (id : String) (body : Bytes) (now file_expiry : Int) : Files :=
  (id, { data := body, uploaded := now, expiry := now + file_expiry }) :: tbl

/-- Line 231: `UPDATE files SET data = %s WHERE id = %s`. -/
def sqlSetData (tbl : Files) (id : String) (body : Bytes) : Files :=
  tbl.map (fun r => if r.1 == id then (r.1, { r.2 with data := body }) else r)

/-- Lines 226-229: `UPDATE files SET uploaded = NOW(), expiry = NOW() + %s
WHERE id = %s` — the dedup-refresh statement; `data` is not mentioned. -/
def sqlRefresh (tbl : Files) (id : String) (now file_expiry : Int) : Files :=
  tbl.map (fun r =>
    if r.1 == id then (r.1, { r.2 with uploaded := now, expiry := now + file_expiry })
    else r)

/-- One database target for the content-addressed write path: its table and
fault injection for the two statements the loop body runs on it.
`insertFault` makes the INSERT raise an error *other than* `UniqueViolation`;
`updateFault` makes whichever follow-up UPDATE runs raise. -/
structure TargetRun where
  table : Files
  insertFault : Bool
  updateFault : Bool

/-- Lines 216-231, one iteration of `for psql in (db.psql, db.slave)` in
content-addressed mode, inside `with psql.transaction()`: try the INSERT with
empty data; on `UniqueViolation` refresh `uploaded`/`expiry` only; otherwise
fill in `data`.  `none` means an exception escaped the loop body (the
transaction rolls back, so the caller keeps the old table). -/
def ca_write_target (id : String) (body : Bytes) (file_expiry now : Int)
    (t : TargetRun) : Option Files :=
  if t.insertFault then none
  else
    match lookupFile t.table id with
    | some _ =>
      if t.updateFault then none
      else some (sqlRefresh t.table id now file_expiry)
    | none =>
      if t.updateFault then none
      else some (sqlSetData (sqlInsert t.table id [] now file_expiry) id body)

/-- The two write targets: `db.psql` (primary) and the optional `db.slave`. -/
structure CaDb where
  primary : TargetRun
  secondary : Option TargetRun

/-- Response of `submit_file` as far as the claims are concerned: the id on
success (HTTP 200), or `error_resp(code)`. -/
inductive SubmitResp where
  | okId : String → SubmitResp
  | errorResp : Nat → SubmitResp
deriving DecidableEq

/-- Result of a content-addressed submission: the response plus the final
table of each target. -/
structure CaOutcome where
  resp : SubmitResp
  primaryTable : Files
  secondaryTable : Option Files
deriving DecidableEq

/-- `submit_file` (lines 159-238) in content-addressed mode
(`config.BACKWARDS_COMPAT_IDS` false): the size guard (lines 164-168), then the
loop of lines 212-231 inside the `try` of lines 171/233-235.  Any exception in
the loop body — including one raised while processing `db.slave` — is caught
only by the outer `except Exception`, which returns
`error_resp(INTERNAL_SERVER_ERROR)`. -/
def submit_file_ca (c : Crypto) (max_file_size : Nat) (file_expiry now : Int)
    (body : Bytes) (db : CaDb) : CaOutcome :=
  if ¬ (0 < body.length ∧ body.length ≤ max_file_size) then
    ⟨.errorResp http.PAYLOAD_TOO_LARGE, db.primary.table, db.secondary.map (·.table)⟩
  else
    let id := generate_file_id c.blake2b body
    match ca_write_target id body file_expiry now db.primary with
    | none =>
      ⟨.errorResp http.INTERNAL_SERVER_ERROR, db.primary.table, db.secondary.map (·.table)⟩
    | some p =>
      match db.secondary with
      | none => ⟨.okId id, p, none⟩
      | some s =>
        match ca_write_target id body file_expiry now s with
        | none => ⟨.errorResp http.INTERNAL_SERVER_ERROR, p, some s.table⟩
        | some s2 => ⟨.okId id, p, some s2⟩

/-! ### Legacy ID allocator and legacy write path (lines 21-26 and 172-208) -/

/-- Lines 23-25: `BACKWARDS_COMPAT_MSB = sum(y << x for x, y in
enumerate(reversed(config.BACKWARDS_COMPAT_IDS_FIXED_BITS)))`. -/
def BACKWARDS_COMPAT_MSB (fixed_bits : List Nat) : Nat :=
  ((fixed_bits.reverse.enum).map (fun xy => xy.2 <<< xy.1)).sum

/-- Line 26: `BACKWARDS_COMPAT_RANDOM_BITS = 53 - len(fixed_bits)`. -/
def BACKWARDS_COMPAT_RANDOM_BITS (fixed_bits : List Nat) : Nat :=
  53 - fixed_bits.length

/-- Lines 176-178: `id = BACKWARDS_COMPAT_MSB << BACKWARDS_COMPAT_RANDOM_BITS
| secrets.randbits(BACKWARDS_COMPAT_RANDOM_BITS)`; `draw` is the value the
random source returned. -/
def legacy_file_id (fixed_bits : List Nat) (draw : Nat) : Nat :=
  BACKWARDS_COMPAT_MSB fixed_bits <<< BACKWARDS_COMPAT_RANDOM_BITS fixed_bits ||| draw

/-- Outcome of the primary-target INSERT of one legacy attempt. -/
inductive PrimaryInsert where
  | ok : PrimaryInsert
  | uniqueViolation : PrimaryInsert
  | otherError : PrimaryInsert
deriving DecidableEq

/-- Environment of one iteration of the legacy retry loop: the random draw and
how each database INSERT behaves. -/
structure LegacyAttempt where
  draw : Nat
  primary : PrimaryInsert
  slaveFault : Bool

/-- Lines 173-202: the legacy retry loop (`for attempt in range(25)`), with
`beh i` the environment of iteration `i`.  `UniqueViolation` on the primary is
caught and retried; any other primary error escapes to the outer
`except Exception` (HTTP 500); a slave failure (lines 197-199) is logged and
swallowed, which is why `slaveFault` is ignored.  Exhausting the 25 attempts
returns `error_resp(INSUFFICIENT_STORAGE)` (lines 204-208). -/
def legacy_loop (fixed_bits : List Nat) (beh : Nat → LegacyAttempt) :
    Nat → Nat → SubmitResp
  | 0, _ => .errorResp http.INSUFFICIENT_STORAGE
  | fuel + 1, i =>
    match (beh i).primary with
    | .uniqueViolation => legacy_loop fixed_bits beh fuel (i + 1)
    | .otherError => .errorResp http.INTERNAL_SERVER_ERROR
    | .ok =>
      let _slaveFailed := (beh i).slaveFault
      .okId (toString (legacy_file_id fixed_bits (beh i).draw))

/-- `submit_file` in legacy mode (`config.BACKWARDS_COMPAT_IDS` true): size
guard, then the 25-attempt loop.  (On the non-deprecated path the id is
`str(id)`; the deprecated path returns the same integer inside a different
JSON shape, which this response type abstracts.) -/
def submit_file_legacy (fixed_bits : List Nat) (max_file_size : Nat)
    (body : Bytes) (beh : Nat → LegacyAttempt) : SubmitResp :=
  if ¬ (0 < body.length ∧ body.length ≤ max_file_size) then
    .errorResp http.PAYLOAD_TOO_LARGE
  else legacy_loop fixed_bits beh 25 0

/-! ### Version check (`get_session_version`, lines 311-436) -/

/-- One row of `account_version_checks` (line 332): blinded id, platform,
insertion timestamp. -/
structure VersionEvent where
  blinded_id : String
  platform : String
  timestamp : Int
deriving DecidableEq

/-- The read-only release data `get_session_version` consults:
`project_updated` is the `projects.updated` row for the platform's project
(`none` when the project row is missing, line 342) and `latest_release` the
highest-version row of `release_versions` (`none` when there are none,
line 356).  The optional name/notes/assets/prerelease fields only add JSON
fields and cannot change the control flow, so they are not carried. -/
structure VersionDb where
  project_updated : Option Int
  latest_release : Option String

/-- Response of `get_session_version`: 200 with the latest release version,
an `error_resp`/abort with a status code, or an uncaught exception (which
flask turns into HTTP 500). -/
inductive VersionResp where
  | okResp : String → VersionResp
  | errorResp : Nat → VersionResp
  | exn : VersionResp
deriving DecidableEq

/-- Lines 311-359 of `get_session_version`, the part that decides the
response class and the event write: platform validation (lines 313-317), the
optional authentication (line 322), the event INSERT into the primary and the
slave (lines 324-335, *not* wrapped in any try), then the project and
release lookups (lines 337-359).  Returns the response together with the
primary's `account_version_checks` rows.  `primaryEventFault` /
`slaveEventFault` make the respective event INSERT raise. -/
def get_session_version (c : Crypto) (now : Int) (req : Request) (db : VersionDb)
    (events : List VersionEvent) (primaryEventFault : Bool)
    (slaveConfigured slaveEventFault : Bool) :
    VersionResp × List VersionEvent :=
  let platformOk : Bool := match req.args_platform with
    | some p => p == "desktop" || p == "android" || p == "ios"
    | none => false
  if platformOk then
    let p := req.args_platform.getD ""
    match valid_blinded_version_id_for_auth c now req false with
    | .reject code => (.errorResp code, events)
    | .typeError => (.exn, events)
    | .noIdentity =>
      match db.project_updated with
      | none => (.errorResp http.BAD_GATEWAY, events)
      | some _ =>
        match db.latest_release with
        | none => (.errorResp http.BAD_GATEWAY, events)
        | some ver => (.okResp ver, events)
    | .ok blinded_id =>
      if primaryEventFault then (.exn, events)
      else
        let events2 := events ++ [⟨blinded_id, p, now⟩]
        if slaveConfigured ∧ slaveEventFault then (.exn, events2)
        else
          match db.project_updated with
          | none => (.errorResp http.BAD_GATEWAY, events2)
          | some _ =>
            match db.latest_release with
            | none => (.errorResp http.BAD_GATEWAY, events2)
            | some ver => (.okResp ver, events2)
  else (.errorResp http.NOT_FOUND, events)

/-! ### Lemmas about the legacy allocator -/

theorem msb_cons (b : Nat) (bs : List Nat) :
    BACKWARDS_COMPAT_MSB (b :: bs) = b <<< bs.length + BACKWARDS_COMPAT_MSB bs := by
  simp [BACKWARDS_COMPAT_MSB, List.reverse_cons, List.enum_append, List.enumFrom,
    Nat.add_comm]

theorem msb_lt (bs : List Nat) (hb : ∀ x ∈ bs, x = 0 ∨ x = 1) :
    BACKWARDS_COMPAT_MSB bs < 2 ^ bs.length := by
  induction bs with
  | nil => simp [BACKWARDS_COMPAT_MSB]
  | cons b bs ih =>
    have hb1 : b = 0 ∨ b = 1 := hb b (by simp)
    have ih2 := ih (fun x hx => hb x (by simp [hx]))
    rw [msb_cons, Nat.shiftLeft_eq, List.length_cons, Nat.pow_succ]
    rcases hb1 with h | h <;> subst h
    · calc 0 * 2 ^ bs.length + BACKWARDS_COMPAT_MSB bs
          = BACKWARDS_COMPAT_MSB bs := by ring
        _ < 2 ^ bs.length := ih2
        _ ≤ 2 ^ bs.length * 2 := Nat.le_mul_of_pos_right _ (by norm_num)
    · calc 1 * 2 ^ bs.length + BACKWARDS_COMPAT_MSB bs
          < 1 * 2 ^ bs.length + 2 ^ bs.length := Nat.add_lt_add_left ih2 _
        _ = 2 ^ bs.length * 2 := by ring

theorem msb_testBit (bs : List Nat) (hb : ∀ x ∈ bs, x = 0 ∨ x = 1)
    (i : Nat) (h : i < bs.length) :
    (BACKWARDS_COMPAT_MSB bs).testBit (bs.length - 1 - i)
      = decide (bs.get ⟨i, h⟩ = 1) := by
  induction bs generalizing i with
  | nil => exact absurd h (Nat.not_lt_zero i)
  | cons b bs ih =>
    have hb1 : b = 0 ∨ b = 1 := hb b (by simp)
    have hbs : ∀ x ∈ bs, x = 0 ∨ x = 1 := fun x hx => hb x (by simp [hx])
    have hM : BACKWARDS_COMPAT_MSB bs < 2 ^ bs.length := msb_lt bs hbs
    rw [msb_cons, Nat.shiftLeft_eq, Nat.mul_comm]
    cases i with
    | zero =>
      simp only [List.length_cons, Nat.add_sub_cancel, Nat.sub_zero]
      rw [Nat.testBit_mul_pow_two_add _ hM, if_neg (Nat.lt_irrefl _), Nat.sub_self]
      rcases hb1 with h0 | h0 <;> subst h0 <;> simp [List.get]
    | succ j =>
      have hj : j < bs.length := Nat.lt_of_succ_lt_succ h
      have hget : (b :: bs).get ⟨j + 1, h⟩ = bs.get ⟨j, hj⟩ := rfl
      rw [hget]
      simp only [List.length_cons]
      have hidx : bs.length + 1 - 1 - (j + 1) = bs.length - 1 - j := by omega
      rw [hidx, Nat.testBit_mul_pow_two_add _ hM, if_pos (by omega)]
      exact ih hbs j hj

/-- Claim C8: in legacy mode, with every configured fixed bit 0 or 1 (the
assert on line 22) and at most 53 of them and a random draw below
`2 ^ BACKWARDS_COMPAT_RANDOM_BITS` (what `secrets.randbits` returns), the
allocated id is below `2 ^ 53`, its top `k` bits inside the 53-bit field are
the configured bits in order, and its remaining low bits are exactly the
random draw. -/
theorem legacy_id_bit_placement (fixed_bits : List Nat) (draw : Nat)
    (hb : ∀ x ∈ fixed_bits, x = 0 ∨ x = 1)
    (hk : fixed_bits.length ≤ 53)
    (hd : draw < 2 ^ BACKWARDS_COMPAT_RANDOM_BITS fixed_bits) :
    legacy_file_id fixed_bits draw < 2 ^ 53 ∧
    (∀ i (h : i < fixed_bits.length),
        (legacy_file_id fixed_bits draw).testBit (52 - i)
          = decide (fixed_bits.get ⟨i, h⟩ = 1)) ∧
    legacy_file_id fixed_bits draw % 2 ^ BACKWARDS_COMPAT_RANDOM_BITS fixed_bits
      = draw := by
  have hrb : BACKWARDS_COMPAT_RANDOM_BITS fixed_bits = 53 - fixed_bits.length := rfl
  have hkrb : fixed_bits.length + BACKWARDS_COMPAT_RANDOM_BITS fixed_bits = 53 := by
    rw [hrb]; omega
  have hM := msb_lt fixed_bits hb
  refine ⟨?_, ?_, ?_⟩
  · apply Nat.or_lt_two_pow
    · rw [Nat.shiftLeft_eq]
      calc BACKWARDS_COMPAT_MSB fixed_bits * 2 ^ BACKWARDS_COMPAT_RANDOM_BITS fixed_bits
          < 2 ^ fixed_bits.length * 2 ^ BACKWARDS_COMPAT_RANDOM_BITS fixed_bits :=
            (Nat.mul_lt_mul_right (Nat.two_pow_pos _)).mpr hM
        _ = 2 ^ 53 := by rw [← Nat.pow_add, hkrb]
    · exact lt_of_lt_of_le hd (Nat.pow_le_pow_right (by norm_num) (by omega))
  · intro i h
    unfold legacy_file_id
    rw [Nat.testBit_or, Nat.testBit_shiftLeft]
    have h1 : BACKWARDS_COMPAT_RANDOM_BITS fixed_bits ≤ 52 - i := by omega
    have h2 : 52 - i - BACKWARDS_COMPAT_RANDOM_BITS fixed_bits
        = fixed_bits.length - 1 - i := by omega
    have h3 : draw.testBit (52 - i) = false := by
      apply Nat.testBit_lt_two_pow
      exact lt_of_lt_of_le hd (Nat.pow_le_pow_right (by norm_num) h1)
    rw [h2, h3, msb_testBit fixed_bits hb i h]
    simp [h1]
  · apply Nat.eq_of_testBit_eq
    intro j
    rw [Nat.testBit_mod_two_pow]
    unfold legacy_file_id
    rw [Nat.testBit_or, Nat.testBit_shiftLeft]
    rcases Nat.lt_or_ge j (BACKWARDS_COMPAT_RANDOM_BITS fixed_bits) with hj | hj
    · have : ¬ (j ≥ BACKWARDS_COMPAT_RANDOM_BITS fixed_bits) := by omega
      simp [hj, this]
    · have h4 : draw.testBit j = false := by
        apply Nat.testBit_lt_two_pow
        exact lt_of_lt_of_le hd (Nat.pow_le_pow_right (by norm_num) hj)
      have : ¬ (j < BACKWARDS_COMPAT_RANDOM_BITS fixed_bits) := by omega
      simp [this, h4]

/-- Witness for C8 at the spec's example configuration `[1, 0]` and draw 5:
the two most significant bits of the 53-bit field are `10`. -/
theorem legacy_id_bit_placement_witness :
    legacy_file_id [1, 0] 5 < 2 ^ 53 ∧
    (legacy_file_id [1, 0] 5).testBit 52 = true ∧
    (legacy_file_id [1, 0] 5).testBit 51 = false ∧
    legacy_file_id [1, 0] 5 % 2 ^ BACKWARDS_COMPAT_RANDOM_BITS [1, 0] = 5 := by
  have h := legacy_id_bit_placement [1, 0] 5 (by decide) (by decide)
    (by norm_num [BACKWARDS_COMPAT_RANDOM_BITS])
  refine ⟨h.1, ?_, ?_, h.2.2⟩
  · have h0 := h.2.1 0 (by norm_num)
    simpa using h0
  · have h1 := h.2.1 1 (by norm_num)
    simpa using h1

/-! ### Lemmas about the content hasher -/

theorem b64Char_valid (i : Nat) : b64Char i < 128 ∧ b64Char i ≠ 61 := by
  unfold b64Char
  split
  · omega
  · split
    · omega
    · split
      · omega
      · split <;> omega

theorem urlsafe_b64encode_mod3 (l : Bytes) (h : l.length % 3 = 0) :
    (urlsafe_b64encode l).length = 4 * (l.length / 3) ∧
    ∀ x ∈ urlsafe_b64encode l, x < 128 ∧ x ≠ 61 := by
  induction l using urlsafe_b64encode.induct with
  | case1 => simp [urlsafe_b64encode]
  | case2 a => simp at h
  | case3 a b => simp at h
  | case4 a b c rest ih =>
    have hrest : rest.length % 3 = 0 := by
      have := h
      simp only [List.length_cons] at this
      omega
    obtain ⟨ihlen, ihmem⟩ := ih hrest
    constructor
    · simp only [urlsafe_b64encode, List.length_cons, ihlen]
      omega
    · intro x hx
      simp only [urlsafe_b64encode, List.mem_cons] at hx
      rcases hx with rfl | rfl | rfl | rfl | hx
      · exact b64Char_valid _
      · exact b64Char_valid _
      · exact b64Char_valid _
      · exact b64Char_valid _
      · exact ihmem x hx

theorem toNat_ofNat_lt {n : Nat} (h : n < 55296) : (Char.ofNat n).toNat = n := by
  have hv : n.isValidChar := Or.inl h
  rw [Char.ofNat, dif_pos hv]
  rfl

/-- Claim C7: the content-addressed id is a pure function of the payload: the
33-byte salted blake2b digest, URL-safe base64 encoded, giving exactly 44
characters with no padding character; equal inputs give equal ids.  The
`hdigest` hypothesis is blake2b's guarantee that a digest has exactly
`digest_size` bytes. -/
theorem generate_file_id_spec (blake2b : Bytes → Nat → Bytes → Bytes)
    (hdigest : ∀ d n s, (blake2b d n s).length = n) (b : Bytes) :
    (generate_file_id blake2b b).length = 44 ∧
    (∀ ch ∈ (generate_file_id blake2b b).data, ch ≠ '=') ∧
    (∀ b2, b = b2 → generate_file_id blake2b b = generate_file_id blake2b b2) := by
  have h33 : (blake2b b 33 fileSvrSalt).length = 33 := hdigest b 33 fileSvrSalt
  have h3 : (blake2b b 33 fileSvrSalt).length % 3 = 0 := by rw [h33]
  have henc := urlsafe_b64encode_mod3 _ h3
  refine ⟨?_, ?_, fun b2 hb => by rw [hb]⟩
  · show (List.map Char.ofNat (urlsafe_b64encode (blake2b b 33 fileSvrSalt))).length = 44
    rw [List.length_map, henc.1, h33]
  · intro ch hch
    have hch2 : ch ∈ List.map Char.ofNat (urlsafe_b64encode (blake2b b 33 fileSvrSalt)) := hch
    obtain ⟨x, hx, rfl⟩ := List.mem_map.mp hch2
    obtain ⟨hlt, hne⟩ := henc.2 x hx
    intro heq
    have h61 : (Char.ofNat x).toNat = 61 := by rw [heq]; rfl
    rw [toNat_ofNat_lt (by omega)] at h61
    exact hne h61

/-- A concrete stand-in digest function for witnesses: `n` zero bytes. -/
def blakeZero : Bytes → Nat → Bytes → Bytes := fun _ n _ => List.replicate n 0

/-- Witness for C7 at a concrete digest function and payload. -/
theorem generate_file_id_spec_witness :
    (generate_file_id blakeZero [1, 2, 3]).length = 44 ∧
    ('=' ∈ (generate_file_id blakeZero [1, 2, 3]).data → False) := by
  have h := generate_file_id_spec blakeZero
    (fun d n s => List.length_replicate n 0) [1, 2, 3]
  exact ⟨h.1, fun hm => h.2.1 '=' hm rfl⟩

/-! ### Lemmas about the authenticator -/

theorem decode_hex_or_b64_length {s : String} {n : Nat} {bs : Bytes}
    (h : decode_hex_or_b64 s n = some bs) : bs.length = n := by
  simp only [decode_hex_or_b64] at h
  split at h
  · rename_i bs2 heq
    split at h
    · injection h with h
      subst h
      assumption
    · exact absurd h (by simp)
  · exact absurd h (by simp)

/-- Unfolding of `valid_blinded_version_id_for_auth` once all three auth
headers are present and non-empty. -/
theorem auth_reduce (c : Crypto) (now : Int) (req : Request) (required : Bool)
    (pkStr tsStr sigStr : String)
    (hpk : req.pubkeyHeader = some pkStr) (hts : req.timestampHeader = some tsStr)
    (hsig : req.signatureHeader = some sigStr)
    (h1 : pkStr ≠ "") (h2 : tsStr ≠ "") (h3 : sigStr ≠ "") :
    valid_blinded_version_id_for_auth c now req required =
      match decode_hex_or_b64 pkStr 33 with
      | none => .reject http.BAD_REQUEST
      | some pkBytes =>
        if pkBytes.headD 0 ≠ 7 then .reject http.BAD_REQUEST
        else if ¬ c.is_valid_point pkBytes.tail then .reject http.BAD_REQUEST
        else
          match decode_hex_or_b64 sigStr 64 with
          | none => .reject http.BAD_REQUEST
          | some sig_in =>
            match int_of_string tsStr with
            | none => .reject http.BAD_REQUEST
            | some ts =>
              if ¬ (now - 24 * 60 * 60 ≤ ts ∧ ts ≤ now + 24 * 60 * 60) then
                .reject http.TOO_EARLY
              else
                match
                  (if req.data.length ≠ 0 then
                    pyBytesAdd
                      (if req.query_string.length ≠ 0 then
                        strBytes tsStr ++ strBytes req.method ++ strBytes req.path
                          ++ (63 :: req.query_string)
                      else strBytes tsStr ++ strBytes req.method ++ strBytes req.path)
                      (.hashObject (c.blake2b req.data 64 []))
                  else some
                    (if req.query_string.length ≠ 0 then
                      strBytes tsStr ++ strBytes req.method ++ strBytes req.path
                        ++ (63 :: req.query_string)
                    else strBytes tsStr ++ strBytes req.method ++ strBytes req.path))
                with
                | none => .typeError
                | some msg =>
                  if c.ed25519_verify pkBytes.tail msg sig_in then .ok pkStr
                  else .reject http.UNAUTHORIZED := by
  have hm : missingCount (some pkStr) (some tsStr) (some sigStr) = 0 := by
    simp [missingCount, headerMissing, h1, h2, h3]
  simp only [valid_blinded_version_id_for_auth, hpk, hts, hsig, Option.getD_some]
  rw [if_neg (by simp [hm])]

theorem headerMissing_false {h : Option String} (hf : headerMissing h = false) :
    h ≠ none ∧ h ≠ some "" := by
  cases h with
  | none => simp [headerMissing] at hf
  | some s =>
    refine ⟨by simp, ?_⟩
    intro e
    injection e with e
    subst e
    simp [headerMissing] at hf

theorem missingCount_eq_zero {pk ts sig : Option String}
    (h : missingCount pk ts sig = 0) :
    headerMissing pk = false ∧ headerMissing ts = false ∧ headerMissing sig = false := by
  simp only [missingCount] at h
  refine ⟨?_, ?_, ?_⟩ <;> by_contra hb <;> rw [Bool.not_eq_false] at hb <;>
    rw [hb] at h <;> simp at h

theorem auth_missing_reject (c : Crypto) (now : Int) (req : Request) (required : Bool)
    (h : missingCount req.pubkeyHeader req.timestampHeader req.signatureHeader ≠ 0)
    (h2 : required = true
      ∨ missingCount req.pubkeyHeader req.timestampHeader req.signatureHeader < 3) :
    valid_blinded_version_id_for_auth c now req required = .reject http.BAD_REQUEST := by
  unfold valid_blinded_version_id_for_auth
  rw [if_pos h, if_pos h2]

theorem auth_all_missing (c : Crypto) (now : Int) (req : Request) (required : Bool)
    (h : missingCount req.pubkeyHeader req.timestampHeader req.signatureHeader = 3) :
    valid_blinded_version_id_for_auth c now req required
      = if required then .reject http.BAD_REQUEST else .noIdentity := by
  simp only [valid_blinded_version_id_for_auth, h]
  cases required <;> norm_num

/-- Claim C4: three-way classification of the auth headers.  All three absent
with `required` false gives the no-identity outcome; some but not all absent
gives BadRequest; all three absent with `required` true gives BadRequest.
(Headers that are present but empty are claim C10's subject, so present
headers are assumed non-empty here.) -/
theorem auth_header_classification (c : Crypto) (now : Int) (req : Request)
    (required : Bool)
    (hpk : req.pubkeyHeader ≠ some "") (hts : req.timestampHeader ≠ some "")
    (hsig : req.signatureHeader ≠ some "") :
    ((req.pubkeyHeader = none ∧ req.timestampHeader = none ∧ req.signatureHeader = none
        ∧ required = false) →
      valid_blinded_version_id_for_auth c now req required = .noIdentity) ∧
    ((req.pubkeyHeader = none ∨ req.timestampHeader = none ∨ req.signatureHeader = none) →
     ¬ (req.pubkeyHeader = none ∧ req.timestampHeader = none ∧ req.signatureHeader = none) →
      valid_blinded_version_id_for_auth c now req required = .reject http.BAD_REQUEST) ∧
    ((req.pubkeyHeader = none ∧ req.timestampHeader = none ∧ req.signatureHeader = none
        ∧ required = true) →
      valid_blinded_version_id_for_auth c now req required = .reject http.BAD_REQUEST) := by
  refine ⟨?_, ?_, ?_⟩
  · rintro ⟨e1, e2, e3, e4⟩
    have h3 : missingCount req.pubkeyHeader req.timestampHeader req.signatureHeader = 3 := by
      simp [missingCount, headerMissing, e1, e2, e3]
    rw [auth_all_missing c now req required h3, e4]
    rfl
  · intro hone hnotall
    refine auth_missing_reject c now req required ?_ (Or.inr ?_)
    · rcases hone with e | e | e <;> simp [missingCount, headerMissing, e]
    · rcases hp : req.pubkeyHeader with _ | s1 <;>
        rcases ht : req.timestampHeader with _ | s2 <;>
          rcases hs : req.signatureHeader with _ | s3 <;>
            simp_all [missingCount, headerMissing]
  · rintro ⟨e1, e2, e3, e4⟩
    have h3 : missingCount req.pubkeyHeader req.timestampHeader req.signatureHeader = 3 := by
      simp [missingCount, headerMissing, e1, e2, e3]
    rw [auth_all_missing c now req required h3, e4]
    rfl

/-- Witness for C4: all three headers absent and auth not required gives the
no-identity outcome; only the signature header absent gives BadRequest. -/
theorem auth_header_classification_witness :
    valid_blinded_version_id_for_auth ⟨blakeZero, fun _ => true, fun _ _ _ => true⟩ 0
      ⟨none, none, none, "GET", "/file", [], [], none⟩ false = .noIdentity ∧
    valid_blinded_version_id_for_auth ⟨blakeZero, fun _ => true, fun _ _ _ => true⟩ 0
      ⟨some "aa", some "0", none, "GET", "/file", [], [], none⟩ false
      = .reject http.BAD_REQUEST := by
  constructor
  · exact (auth_header_classification _ 0 _ false (by simp) (by simp) (by simp)).1
      ⟨rfl, rfl, rfl, rfl⟩
  · exact (auth_header_classification _ 0 _ false (by simp) (by simp) (by simp)).2.1
      (Or.inr (Or.inr rfl)) (by simp)

/-- Claim C10: an auth header that is present with an empty-string value is
classified exactly as if it were absent: the authenticator's result is
invariant under replacing empty-valued headers by absent ones, all three
empty with auth not required gives the no-identity outcome, and a mix of
empty/missing and non-empty headers gives BadRequest. -/
theorem empty_auth_headers_like_missing (c : Crypto) (now : Int) (req : Request)
    (required : Bool) :
    (valid_blinded_version_id_for_auth c now req required =
      valid_blinded_version_id_for_auth c now
        { req with
            pubkeyHeader := if req.pubkeyHeader = some "" then none else req.pubkeyHeader,
            timestampHeader :=
              if req.timestampHeader = some "" then none else req.timestampHeader,
            signatureHeader :=
              if req.signatureHeader = some "" then none else req.signatureHeader }
        required) ∧
    ((req.pubkeyHeader = some "" ∧ req.timestampHeader = some ""
        ∧ req.signatureHeader = some "" ∧ required = false) →
      valid_blinded_version_id_for_auth c now req required = .noIdentity) ∧
    (missingCount req.pubkeyHeader req.timestampHeader req.signatureHeader ≠ 0 →
     missingCount req.pubkeyHeader req.timestampHeader req.signatureHeader < 3 →
      valid_blinded_version_id_for_auth c now req required = .reject http.BAD_REQUEST) := by
  have hnorm : ∀ h : Option String,
      headerMissing (if h = some "" then none else h) = headerMissing h := by
    intro h
    split
    · rename_i he
      rw [he]
      rfl
    · rfl
  refine ⟨?_, ?_, ?_⟩
  · by_cases hm : missingCount req.pubkeyHeader req.timestampHeader req.signatureHeader = 0
    · obtain ⟨f1, f2, f3⟩ := missingCount_eq_zero hm
      rw [if_neg (headerMissing_false f1).2, if_neg (headerMissing_false f2).2,
        if_neg (headerMissing_false f3).2]
    · have hmc : missingCount
          (if req.pubkeyHeader = some "" then none else req.pubkeyHeader)
          (if req.timestampHeader = some "" then none else req.timestampHeader)
          (if req.signatureHeader = some "" then none else req.signatureHeader)
          = missingCount req.pubkeyHeader req.timestampHeader req.signatureHeader := by
        simp only [missingCount, hnorm]
      conv_lhs => rw [valid_blinded_version_id_for_auth]
      conv_rhs => rw [valid_blinded_version_id_for_auth]
      simp only [hmc]
      rw [if_pos hm, if_pos hm]
  · rintro ⟨e1, e2, e3, e4⟩
    have h3 : missingCount req.pubkeyHeader req.timestampHeader req.signatureHeader = 3 := by
      simp [missingCount, headerMissing, e1, e2, e3]
    rw [auth_all_missing c now req required h3, e4]
    rfl
  · intro h1 h2
    exact auth_missing_reject c now req required h1 (Or.inr h2)

/-- Witness for C10: all three headers present but empty, auth not required,
gives the no-identity outcome; an empty pubkey header next to non-empty
timestamp/signature headers gives BadRequest. -/
theorem empty_auth_headers_like_missing_witness :
    valid_blinded_version_id_for_auth ⟨blakeZero, fun _ => true, fun _ _ _ => true⟩ 0
      ⟨some "", some "", some "", "GET", "/file", [], [], none⟩ false = .noIdentity ∧
    valid_blinded_version_id_for_auth ⟨blakeZero, fun _ => true, fun _ _ _ => true⟩ 0
      ⟨some "", some "1", some "ab", "GET", "/file", [], [], none⟩ false
      = .reject http.BAD_REQUEST := by
  constructor
  · exact (empty_auth_headers_like_missing _ 0 _ false).2.1 ⟨rfl, rfl, rfl, rfl⟩
  · exact (empty_auth_headers_like_missing _ 0 _ false).2.2 (by decide) (by decide)

/-- Crypto bundle for witnesses: every point is valid and every signature
verifies; digests are zero bytes. -/
def cAccept : Crypto := ⟨blakeZero, fun _ => true, fun _ _ _ => true⟩

/-- A pubkey header for witnesses: `07` followed by 64 zero hex digits. -/
def pkHexStr : String :=
  "070000000000000000000000000000000000000000000000000000000000000000"

/-- A signature header for witnesses: 128 zero hex digits. -/
def sigHexStr : String :=
  String.mk (List.replicate 128 (Char.ofNat 48))

/-- Claim C5: with all auth headers present, the pubkey header must decode to
exactly 33 bytes whose first byte is 7 and whose tail is a valid Ed25519
point, each violation rejecting with BadRequest; whenever the authenticator
returns an identity it is the original undecoded pubkey header string. -/
theorem auth_pubkey_validation (c : Crypto) (now : Int) (req : Request) (required : Bool)
    (pkStr tsStr sigStr : String)
    (hpk : req.pubkeyHeader = some pkStr) (hts : req.timestampHeader = some tsStr)
    (hsig : req.signatureHeader = some sigStr)
    (h1 : pkStr ≠ "") (h2 : tsStr ≠ "") (h3 : sigStr ≠ "") :
    (decode_hex_or_b64 pkStr 33 = none →
      valid_blinded_version_id_for_auth c now req required = .reject http.BAD_REQUEST) ∧
    (∀ bs, decode_hex_or_b64 pkStr 33 = some bs → bs.length = 33) ∧
    (∀ bs, decode_hex_or_b64 pkStr 33 = some bs → bs.headD 0 ≠ 7 →
      valid_blinded_version_id_for_auth c now req required = .reject http.BAD_REQUEST) ∧
    (∀ bs, decode_hex_or_b64 pkStr 33 = some bs → bs.headD 0 = 7 →
      c.is_valid_point bs.tail = false →
      valid_blinded_version_id_for_auth c now req required = .reject http.BAD_REQUEST) ∧
    (∀ s, valid_blinded_version_id_for_auth c now req required = .ok s → s = pkStr) := by
  refine ⟨?_, fun bs hd => decode_hex_or_b64_length hd, ?_, ?_, ?_⟩
  · intro hd
    rw [auth_reduce c now req required pkStr tsStr sigStr hpk hts hsig h1 h2 h3]
    simp only [hd]
  · intro bs hd hhead
    rw [auth_reduce c now req required pkStr tsStr sigStr hpk hts hsig h1 h2 h3]
    simp only [hd]
    rw [if_pos hhead]
  · intro bs hd hhead hpt
    rw [auth_reduce c now req required pkStr tsStr sigStr hpk hts hsig h1 h2 h3]
    simp only [hd]
    rw [if_neg (not_not_intro hhead), if_pos (by simp [hpt])]
  · intro s hok
    rw [auth_reduce c now req required pkStr tsStr sigStr hpk hts hsig h1 h2 h3] at hok
    repeat' split at hok
    all_goals simp_all

/-- Witness for C5: a pubkey header that decodes to neither valid hex nor
base64 of 33 bytes is rejected with BadRequest, and on a fully valid request
the returned identity is the undecoded pubkey header string. -/
theorem auth_pubkey_validation_witness :
    valid_blinded_version_id_for_auth cAccept 0
      ⟨some "zz", some "1", some "ab", "GET", "/file", [], [], none⟩ false
      = .reject http.BAD_REQUEST := by
  exact (auth_pubkey_validation cAccept 0
    ⟨some "zz", some "1", some "ab", "GET", "/file", [], [], none⟩ false
    "zz" "1" "ab" rfl rfl rfl (by decide) (by decide) (by decide)).1 (by decide)

/-- Claim C6: with well-formed headers, a parsed timestamp outside the
inclusive window `now - 86400 .. now + 86400` rejects with the distinct
TOO_EARLY status; inside the window verification proceeds to the signature
step; TOO_EARLY differs from BadRequest and Unauthorized. -/
theorem auth_timestamp_window (c : Crypto) (now ts : Int) (req : Request) (required : Bool)
    (pkStr tsStr sigStr : String) (pkBytes sigBytes : Bytes)
    (hpk : req.pubkeyHeader = some pkStr) (hts : req.timestampHeader = some tsStr)
    (hsig : req.signatureHeader = some sigStr)
    (h1 : pkStr ≠ "") (h2 : tsStr ≠ "") (h3 : sigStr ≠ "")
    (hdec : decode_hex_or_b64 pkStr 33 = some pkBytes)
    (htag : pkBytes.headD 0 = 7)
    (hpt : c.is_valid_point pkBytes.tail = true)
    (hsd : decode_hex_or_b64 sigStr 64 = some sigBytes)
    (hparse : int_of_string tsStr = some ts) :
    (¬ (now - 86400 ≤ ts ∧ ts ≤ now + 86400) →
      valid_blinded_version_id_for_auth c now req required = .reject http.TOO_EARLY) ∧
    ((now - 86400 ≤ ts ∧ ts ≤ now + 86400) →
      valid_blinded_version_id_for_auth c now req required = .typeError ∨
      (∃ s, valid_blinded_version_id_for_auth c now req required = .ok s) ∨
      valid_blinded_version_id_for_auth c now req required
        = .reject http.UNAUTHORIZED) ∧
    http.TOO_EARLY ≠ http.BAD_REQUEST ∧ http.TOO_EARLY ≠ http.UNAUTHORIZED := by
  refine ⟨?_, ?_, by decide, by decide⟩
  · intro h
    rw [auth_reduce c now req required pkStr tsStr sigStr hpk hts hsig h1 h2 h3]
    simp only [hdec, hsd, hparse]
    rw [if_neg (not_not_intro htag), if_neg (not_not_intro hpt)]
    rw [if_pos (by omega)]
  · intro h
    rw [auth_reduce c now req required pkStr tsStr sigStr hpk hts hsig h1 h2 h3]
    simp only [hdec, hsd, hparse]
    rw [if_neg (not_not_intro htag), if_neg (not_not_intro hpt)]
    rw [if_neg (show ¬ ¬ (now - 24 * 60 * 60 ≤ ts ∧ ts ≤ now + 24 * 60 * 60) by omega)]
    split
    · simp
    · split <;> simp

set_option maxRecDepth 4000 in
/-- Witness for C6: a timestamp far in the past is rejected with TOO_EARLY. -/
theorem auth_timestamp_window_witness :
    valid_blinded_version_id_for_auth cAccept 1000000
      ⟨some pkHexStr, some "10", some sigHexStr, "GET", "/session_version", [], [], none⟩
      false = .reject http.TOO_EARLY := by
  exact (auth_timestamp_window cAccept 1000000 10
    ⟨some pkHexStr, some "10", some sigHexStr, "GET", "/session_version", [], [], none⟩
    false pkHexStr "10" sigHexStr (7 :: List.replicate 32 0) (List.replicate 64 0)
    rfl rfl rfl (by decide) (by decide) (by decide) (by decide) (by decide) rfl
    (by decide) (by decide)).1 (by omega)

/-- Claim C1: on a fully validated request the source verifies the signature
over `ts_str + method + path`, with `? + query_string` appended iff the query
string is non-empty (lines 132-143); that matches the spec's canonical
message.  But for a non-empty body, line 146 appends the blake2b hash
*object* without calling `.digest()`, so instead of verifying over the
canonical message with the 64-byte body hash the handler raises `TypeError`:
a correctly signed non-empty-body request never verifies. -/
theorem auth_canonical_message (c : Crypto) (now ts : Int) (req : Request) (required : Bool)
    (pkStr tsStr sigStr : String) (pkBytes sigBytes : Bytes)
    (hpk : req.pubkeyHeader = some pkStr) (hts : req.timestampHeader = some tsStr)
    (hsig : req.signatureHeader = some sigStr)
    (h1 : pkStr ≠ "") (h2 : tsStr ≠ "") (h3 : sigStr ≠ "")
    (hdec : decode_hex_or_b64 pkStr 33 = some pkBytes)
    (htag : pkBytes.headD 0 = 7)
    (hpt : c.is_valid_point pkBytes.tail = true)
    (hsd : decode_hex_or_b64 sigStr 64 = some sigBytes)
    (hparse : int_of_string tsStr = some ts)
    (hwin : now - 86400 ≤ ts ∧ ts ≤ now + 86400) :
    (req.data = [] →
      canonical_message c tsStr req
        = strBytes tsStr ++ strBytes req.method ++ strBytes req.path
          ++ (if req.query_string.length ≠ 0 then 63 :: req.query_string else []) ∧
      valid_blinded_version_id_for_auth c now req required
        = (if c.ed25519_verify pkBytes.tail (canonical_message c tsStr req) sigBytes
            then .ok pkStr else .reject http.UNAUTHORIZED)) ∧
    (req.data ≠ [] →
      canonical_message c tsStr req
        = strBytes tsStr ++ strBytes req.method ++ strBytes req.path
          ++ (if req.query_string.length ≠ 0 then 63 :: req.query_string else [])
          ++ c.blake2b req.data 64 [] ∧
      valid_blinded_version_id_for_auth c now req required = .typeError) := by
  constructor
  · intro hd
    have hX : canonical_message c tsStr req
        = (if req.query_string.length ≠ 0 then
            strBytes tsStr ++ strBytes req.method ++ strBytes req.path
              ++ (63 :: req.query_string)
          else strBytes tsStr ++ strBytes req.method ++ strBytes req.path) := by
      simp only [canonical_message, hd, List.length_nil]
      split <;> simp
    refine ⟨by simp [canonical_message, hd], ?_⟩
    rw [auth_reduce c now req required pkStr tsStr sigStr hpk hts hsig h1 h2 h3]
    simp only [hdec, hsd, hparse]
    rw [if_neg (not_not_intro htag), if_neg (not_not_intro hpt)]
    rw [if_neg (show ¬ ¬ (now - 24 * 60 * 60 ≤ ts ∧ ts ≤ now + 24 * 60 * 60) by omega)]
    rw [hX]
    simp only [hd, List.length_nil]
    norm_num
  · intro hd
    have hlen : req.data.length ≠ 0 := fun h => hd (List.length_eq_zero.mp h)
    constructor
    · simp [canonical_message, hlen]
    · rw [auth_reduce c now req required pkStr tsStr sigStr hpk hts hsig h1 h2 h3]
      simp only [hdec, hsd, hparse]
      rw [if_neg (not_not_intro htag), if_neg (not_not_intro hpt)]
      rw [if_neg (show ¬ ¬ (now - 24 * 60 * 60 ≤ ts ∧ ts ≤ now + 24 * 60 * 60) by omega)]
      rw [if_pos hlen]
      rfl

set_option maxRecDepth 4000 in
/-- Witness for C1: a fully valid signed GET with empty body verifies and
returns the pubkey header string; the same credentials with a non-empty body
hit the missing-digest TypeError of line 146. -/
theorem auth_canonical_message_witness :
    valid_blinded_version_id_for_auth cAccept 1000
      ⟨some pkHexStr, some "1000", some sigHexStr, "GET", "/file", [], [], none⟩ false
      = .ok pkHexStr ∧
    valid_blinded_version_id_for_auth cAccept 1000
      ⟨some pkHexStr, some "1000", some sigHexStr, "POST", "/file", [], [1], none⟩ false
      = .typeError := by
  constructor
  · have h := (auth_canonical_message cAccept 1000 1000
      ⟨some pkHexStr, some "1000", some sigHexStr, "GET", "/file", [], [], none⟩ false
      pkHexStr "1000" sigHexStr (7 :: List.replicate 32 0) (List.replicate 64 0)
      rfl rfl rfl (by decide) (by decide) (by decide) (by decide) (by decide) rfl
      (by decide) (by decide) (by omega)).1 rfl
    rw [h.2]
    rfl
  · exact ((auth_canonical_message cAccept 1000 1000
      ⟨some pkHexStr, some "1000", some sigHexStr, "POST", "/file", [], [1], none⟩ false
      pkHexStr "1000" sigHexStr (7 :: List.replicate 32 0) (List.replicate 64 0)
      rfl rfl rfl (by decide) (by decide) (by decide) (by decide) (by decide) rfl
      (by decide) (by decide) (by omega)).2 (by decide)).2

/-! ### Lemmas about the blob store -/

theorem lookupFile_cons (k : String) (r : FileRow) (t : Files) (id : String) :
    lookupFile ((k, r) :: t) id = if k == id then some r else lookupFile t id := by
  by_cases h : (k == id) = true <;> simp [lookupFile, List.find?_cons, h]

theorem lookupFile_sqlSetData (t : Files) (id : String) (body : Bytes) :
    lookupFile (sqlSetData t id body)
      id = (lookupFile t id).map (fun r => { r with data := body }) := by
  induction t with
  | nil => rfl
  | cons hd tl ih =>
    obtain ⟨k, r⟩ := hd
    show lookupFile
        ((if k == id then (k, { r with data := body }) else (k, r))
          :: sqlSetData tl id body) id
      = (lookupFile ((k, r) :: tl) id).map (fun r => { r with data := body })
    by_cases h : (k == id) = true
    · rw [if_pos h, lookupFile_cons, if_pos h, lookupFile_cons, if_pos h]
      rfl
    · rw [if_neg h, lookupFile_cons, if_neg h, lookupFile_cons, if_neg h]
      exact ih

theorem lookupFile_sqlRefresh (t : Files) (id : String) (now file_expiry : Int) :
    lookupFile (sqlRefresh t id now file_expiry) id
      = (lookupFile t id).map
          (fun r => { r with uploaded := now, expiry := now + file_expiry }) := by
  induction t with
  | nil => rfl
  | cons hd tl ih =>
    obtain ⟨k, r⟩ := hd
    show lookupFile
        ((if k == id then (k, { r with uploaded := now, expiry := now + file_expiry })
          else (k, r)) :: sqlRefresh tl id now file_expiry) id
      = (lookupFile ((k, r) :: tl) id).map
          (fun r => { r with uploaded := now, expiry := now + file_expiry })
    by_cases h : (k == id) = true
    · rw [if_pos h, lookupFile_cons, if_pos h, lookupFile_cons, if_pos h]
      rfl
    · rw [if_neg h, lookupFile_cons, if_neg h, lookupFile_cons, if_neg h]
      exact ih

/-- Claim C3: in content-addressed mode, submitting the same payload twice
against a fresh-faultless primary yields the same id both times; the second
submission's write takes the uniqueness-violation branch, whose whole effect
is `sqlRefresh` (the UPDATE of `uploaded`/`expiry` only), leaving the stored
`data` equal to the payload written by the first submission. -/
theorem dedup_idempotent (c : Crypto) (max_file_size : Nat) (file_expiry t1 t2 : Int)
    (body : Bytes) (tbl : Files)
    (hsz : 0 < body.length ∧ body.length ≤ max_file_size)
    (hfree : lookupFile tbl (generate_file_id c.blake2b body) = none) :
    (submit_file_ca c max_file_size file_expiry t1 body ⟨⟨tbl, false, false⟩, none⟩).resp
      = .okId (generate_file_id c.blake2b body) ∧
    (submit_file_ca c max_file_size file_expiry t2 body
        ⟨⟨(submit_file_ca c max_file_size file_expiry t1 body
            ⟨⟨tbl, false, false⟩, none⟩).primaryTable, false, false⟩, none⟩).resp
      = .okId (generate_file_id c.blake2b body) ∧
    (submit_file_ca c max_file_size file_expiry t2 body
        ⟨⟨(submit_file_ca c max_file_size file_expiry t1 body
            ⟨⟨tbl, false, false⟩, none⟩).primaryTable, false, false⟩, none⟩).primaryTable
      = sqlRefresh
          ((submit_file_ca c max_file_size file_expiry t1 body
              ⟨⟨tbl, false, false⟩, none⟩).primaryTable)
          (generate_file_id c.blake2b body) t2 file_expiry ∧
    lookupFile
      ((submit_file_ca c max_file_size file_expiry t2 body
          ⟨⟨(submit_file_ca c max_file_size file_expiry t1 body
              ⟨⟨tbl, false, false⟩, none⟩).primaryTable, false, false⟩,
            none⟩).primaryTable)
      (generate_file_id c.blake2b body)
      = some ⟨body, t2, t2 + file_expiry⟩ := by
  have hw1 : ca_write_target (generate_file_id c.blake2b body) body file_expiry t1
      ⟨tbl, false, false⟩
      = some (sqlSetData
          (sqlInsert tbl (generate_file_id c.blake2b body) [] t1 file_expiry)
          (generate_file_id c.blake2b body) body) := by
    simp [ca_write_target, hfree]
  have hr1 : submit_file_ca c max_file_size file_expiry t1 body ⟨⟨tbl, false, false⟩, none⟩
      = ⟨.okId (generate_file_id c.blake2b body),
          sqlSetData (sqlInsert tbl (generate_file_id c.blake2b body) [] t1 file_expiry)
            (generate_file_id c.blake2b body) body, none⟩ := by
    simp only [submit_file_ca]
    rw [if_neg (not_not_intro hsz)]
    simp only [hw1]
  have hl1 : lookupFile
      (sqlSetData (sqlInsert tbl (generate_file_id c.blake2b body) [] t1 file_expiry)
        (generate_file_id c.blake2b body) body)
      (generate_file_id c.blake2b body) = some ⟨body, t1, t1 + file_expiry⟩ := by
    rw [lookupFile_sqlSetData]
    simp [sqlInsert, lookupFile_cons]
  have hw2 : ca_write_target (generate_file_id c.blake2b body) body file_expiry t2
      ⟨sqlSetData (sqlInsert tbl (generate_file_id c.blake2b body) [] t1 file_expiry)
          (generate_file_id c.blake2b body) body, false, false⟩
      = some (sqlRefresh
          (sqlSetData (sqlInsert tbl (generate_file_id c.blake2b body) [] t1 file_expiry)
            (generate_file_id c.blake2b body) body)
          (generate_file_id c.blake2b body) t2 file_expiry) := by
    simp [ca_write_target, hl1]
  have hr2 : submit_file_ca c max_file_size file_expiry t2 body
      ⟨⟨sqlSetData (sqlInsert tbl (generate_file_id c.blake2b body) [] t1 file_expiry)
          (generate_file_id c.blake2b body) body, false, false⟩, none⟩
      = ⟨.okId (generate_file_id c.blake2b body),
          sqlRefresh
            (sqlSetData (sqlInsert tbl (generate_file_id c.blake2b body) [] t1 file_expiry)
              (generate_file_id c.blake2b body) body)
            (generate_file_id c.blake2b body) t2 file_expiry, none⟩ := by
    simp only [submit_file_ca]
    rw [if_neg (not_not_intro hsz)]
    simp only [hw2]
  rw [hr1]
  refine ⟨rfl, ?_, ?_, ?_⟩
  · rw [hr2]
  · rw [hr2]
  · rw [hr2]
    show lookupFile (sqlRefresh _ _ t2 file_expiry) _ = _
    rw [lookupFile_sqlRefresh, hl1]
    rfl

/-- Witness for C3 at a concrete payload: the second submission returns the
same id and the row holds the original data with refreshed timestamps. -/
theorem dedup_idempotent_witness :
    (submit_file_ca cAccept 10 7 5 [1, 2]
        ⟨⟨(submit_file_ca cAccept 10 7 0 [1, 2]
            ⟨⟨[], false, false⟩, none⟩).primaryTable, false, false⟩, none⟩).resp
      = .okId (generate_file_id cAccept.blake2b [1, 2]) ∧
    lookupFile
      ((submit_file_ca cAccept 10 7 5 [1, 2]
          ⟨⟨(submit_file_ca cAccept 10 7 0 [1, 2]
              ⟨⟨[], false, false⟩, none⟩).primaryTable, false, false⟩,
            none⟩).primaryTable)
      (generate_file_id cAccept.blake2b [1, 2]) = some ⟨[1, 2], 5, 12⟩ := by
  have h := dedup_idempotent cAccept 10 7 0 5 [1, 2] [] (by decide) rfl
  exact ⟨h.2.1, h.2.2.2⟩

theorem legacy_loop_slave_independent (fixed_bits : List Nat)
    (beh beh2 : Nat → LegacyAttempt)
    (hsame : ∀ i, (beh i).draw = (beh2 i).draw ∧ (beh i).primary = (beh2 i).primary) :
    ∀ fuel i, legacy_loop fixed_bits beh fuel i = legacy_loop fixed_bits beh2 fuel i := by
  intro fuel
  induction fuel with
  | zero => intro i; rfl
  | succ n ih =>
    intro i
    simp only [legacy_loop, (hsame i).1, (hsame i).2]
    cases (beh2 i).primary with
    | uniqueViolation => exact ih (i + 1)
    | otherError => rfl
    | ok => rfl

/-- Counterexample to C2 as stated: in content-addressed mode, a write
failure on the secondary target (here a failing UPDATE after a successful
primary write) is not swallowed — it changes the response from the id to
InternalError 500, because the loop body of lines 212-231 has no per-target
exception handler and the error escapes to the outer `except` of line 233. -/
theorem ca_secondary_failure_changes_response :
    (submit_file_ca cAccept 10 7 0 [1]
        ⟨⟨[], false, false⟩, some ⟨[], false, true⟩⟩).resp
      = .errorResp http.INTERNAL_SERVER_ERROR ∧
    (submit_file_ca cAccept 10 7 0 [1]
        ⟨⟨[], false, false⟩, some ⟨[], false, false⟩⟩).resp
      = .okId (generate_file_id cAccept.blake2b [1]) := by
  constructor <;> rfl

/-- Claim C2 as amended: in legacy mode a slave insert failure is swallowed
and cannot change the response, and a non-unique primary failure aborts with
InternalError; in content-addressed mode a failure on *either* target (other
than the uniqueness violation handled by the dedup branch) aborts with
InternalError — the best-effort-secondary contract holds only for the legacy
write path. -/
theorem secondary_failure_handling
    (fixed_bits : List Nat) (max_file_size : Nat) (body : Bytes)
    (beh beh2 : Nat → LegacyAttempt)
    (hsame : ∀ i, (beh i).draw = (beh2 i).draw ∧ (beh i).primary = (beh2 i).primary)
    (c : Crypto) (file_expiry now : Int) (p s : TargetRun) :
    (submit_file_legacy fixed_bits max_file_size body beh
      = submit_file_legacy fixed_bits max_file_size body beh2) ∧
    ((beh 0).primary = .otherError → 0 < body.length → body.length ≤ max_file_size →
      submit_file_legacy fixed_bits max_file_size body beh
        = .errorResp http.INTERNAL_SERVER_ERROR) ∧
    (∀ ptbl, 0 < body.length → body.length ≤ max_file_size →
      ca_write_target (generate_file_id c.blake2b body) body file_expiry now p
        = some ptbl →
      ca_write_target (generate_file_id c.blake2b body) body file_expiry now s = none →
      (submit_file_ca c max_file_size file_expiry now body ⟨p, some s⟩).resp
        = .errorResp http.INTERNAL_SERVER_ERROR) ∧
    (0 < body.length → body.length ≤ max_file_size →
      ca_write_target (generate_file_id c.blake2b body) body file_expiry now p = none →
      (submit_file_ca c max_file_size file_expiry now body ⟨p, some s⟩).resp
        = .errorResp http.INTERNAL_SERVER_ERROR) := by
  refine ⟨?_, ?_, ?_, ?_⟩
  · simp only [submit_file_legacy]
    split
    · rfl
    · exact legacy_loop_slave_independent fixed_bits beh beh2 hsame 25 0
  · intro h0 hp1 hp2
    simp only [submit_file_legacy]
    rw [if_neg (not_not_intro ⟨hp1, hp2⟩)]
    rw [show (25 : Nat) = 24 + 1 from rfl]
    simp only [legacy_loop, h0]
  · intro ptbl hp1 hp2 hw hs
    simp only [submit_file_ca]
    rw [if_neg (not_not_intro ⟨hp1, hp2⟩)]
    simp only [hw, hs]
  · intro hp1 hp2 hw
    simp only [submit_file_ca]
    rw [if_neg (not_not_intro ⟨hp1, hp2⟩)]
    simp only [hw]

/-- Witness for C2 (amended): flipping the slave fault leaves the legacy
response unchanged, and a non-unique primary error gives InternalError. -/
theorem secondary_failure_handling_witness :
    submit_file_legacy [1, 0] 10 [1] (fun _ => ⟨0, .ok, false⟩)
      = submit_file_legacy [1, 0] 10 [1] (fun _ => ⟨0, .ok, true⟩) ∧
    submit_file_legacy [1, 0] 10 [1] (fun _ => ⟨0, .otherError, false⟩)
      = .errorResp http.INTERNAL_SERVER_ERROR := by
  constructor
  · exact (secondary_failure_handling [1, 0] 10 [1] (fun _ => ⟨0, .ok, false⟩)
      (fun _ => ⟨0, .ok, true⟩) (fun i => ⟨rfl, rfl⟩) cAccept 7 0
      ⟨[], false, false⟩ ⟨[], false, false⟩).1
  · exact (secondary_failure_handling [1, 0] 10 [1] (fun _ => ⟨0, .otherError, false⟩)
      (fun _ => ⟨0, .otherError, false⟩) (fun i => ⟨rfl, rfl⟩) cAccept 7 0
      ⟨[], false, false⟩ ⟨[], false, false⟩).2.1 rfl (by decide) (by decide)

set_option maxRecDepth 4000 in
/-- Counterexample to C9 as stated: an authenticated version-check whose
project lookup fails ends in an error response (BAD_GATEWAY), yet the event
row inserted by lines 324-335 — which run before the project lookup — is
already committed. -/
theorem version_event_persisted_on_error :
    (get_session_version cAccept 1000
        ⟨some pkHexStr, some "1000", some sigHexStr, "GET", "/session_version", [], [],
          some "android"⟩
        ⟨none, none⟩ [] false false false).1
      = .errorResp http.BAD_GATEWAY ∧
    (get_session_version cAccept 1000
        ⟨some pkHexStr, some "1000", some sigHexStr, "GET", "/session_version", [], [],
          some "android"⟩
        ⟨none, none⟩ [] false false false).2
      = [⟨pkHexStr, "android", 1000⟩] := by
  constructor <;> rfl

/-- Claim C9 as amended: with the event inserts not faulting, the version
check appends exactly one event row iff the platform argument is valid and
the authenticator returns an identity — independently of whether the rest of
the call succeeds or ends in BAD_GATEWAY. -/
theorem version_event_write_condition (c : Crypto) (now : Int) (req : Request)
    (db : VersionDb) (events : List VersionEvent) (slaveConfigured : Bool) :
    (get_session_version c now req db events false slaveConfigured false).2 =
      match req.args_platform, valid_blinded_version_id_for_auth c now req false with
      | some p, .ok bid =>
        if p == "desktop" || p == "android" || p == "ios" then
          events ++ [⟨bid, p, now⟩]
        else events
      | _, _ => events := by
  obtain ⟨pu, lr⟩ := db
  cases hp : req.args_platform with
  | none => simp [get_session_version, hp]
  | some p =>
    simp only [get_session_version, hp]
    by_cases hv : (p == "desktop" || p == "android" || p == "ios") = true
    · rw [if_pos hv]
      cases ha : valid_blinded_version_id_for_auth c now req false with
      | reject code => simp [ha]
      | typeError => simp [ha]
      | noIdentity => cases pu <;> cases lr <;> simp [ha]
      | ok bid => cases pu <;> cases lr <;> simp [ha, hv]
    · rw [if_neg hv]
      cases ha : valid_blinded_version_id_for_auth c now req false <;> simp [ha, hv]
